import Mathlib

/-!
Shallow embedding of the transcription pipeline of
`src/services/whisper-server.py`: PCM byte decoding, the fixed-option model
invocation, segment assembly, the structured response shaping of the
`/transcribe` handler, and the `/health` endpoint.

Bytes are modelled as `Fin 256`, audio samples as exact rationals (every
int16 value divided by the power of two 32768 is exact in binary floating
point, so ℚ is a faithful carrier for the values the code computes), and the
resident faster-whisper model as an opaque function parameter that may fail,
mirroring the `except Exception` handling in the handler.
-/

namespace WhisperServer

/-- One byte of the inbound request body. -/
abbrev Byte := Fin 256

/-- The keyword options the handler passes to `model.transcribe`
(line 40-46 of the source). -/
structure TranscribeOptions where
  language : String
  beam_size : Nat
  vad_filter : Bool
  min_silence_duration_ms : Nat
deriving DecidableEq

/-- One model-detected span of speech, as produced by faster-whisper:
temporal bounds plus a text fragment.  The handler reads only `text`. -/
structure Segment where
  start : ℚ
  stop : ℚ
  text : String
deriving DecidableEq

/-- The `info` object returned by `model.transcribe`: the model's own
language re-estimate. -/
structure TranscriptionInfo where
  language : String
  language_probability : ℚ
deriving DecidableEq

/-- The resident model, treated as an opaque capability: given normalized
samples and decode options it either fails (any internal model error,
surfaced by the handler's `except` clause) or yields the segments and the
detected-language info. -/
abbrev ModelFn := List ℚ → TranscribeOptions → Except String (List Segment × TranscriptionInfo)

/-- Reassemble one little-endian signed 16-bit integer from its two bytes,
as `np.frombuffer(audio_data, dtype=np.int16)` does. -/
def toInt16 (lo hi : Byte) : Int :=
  if lo.val + 256 * hi.val < 32768 then ((lo.val + 256 * hi.val : Nat) : Int)
  else ((lo.val + 256 * hi.val : Nat) : Int) - 65536

/-- `np.frombuffer(audio_data, dtype=np.int16)` (line 34): pairs of bytes
become int16 values in little-endian order; a buffer whose length is not a
multiple of the element size raises `ValueError`. -/
def frombufferInt16 : List Byte → Except String (List Int)
  | [] => Except.ok []
  | [_] => Except.error "buffer size must be a multiple of element size"
  | lo :: hi :: rest => Except.map (fun t => toInt16 lo hi :: t) (frombufferInt16 rest)

/-- The Audio Decoder component (lines 34-37): reinterpret the bytes as
int16, convert to float and divide by 32768.0. -/
def decode (buf : List Byte) : Except String (List ℚ) :=
  Except.map (List.map (fun i : Int => (i : ℚ) / 32768)) (frombufferInt16 buf)

/-- The literal options of the `model.transcribe` call in the source:
language forced to English, beam size 5, VAD filter on with a 500 ms
minimum-silence-duration threshold. -/
def fixedOptions : TranscribeOptions :=
  { language := "en", beam_size := 5, vad_filter := true, min_silence_duration_ms := 500 }

/-- The Segment Assembler (lines 49-53): collect each segment's text in
order, join with a single space, strip the joined string. -/
def assemble (segs : List Segment) : String :=
  (String.intercalate " " (segs.map Segment.text)).trim

/-- The JSON body the `/transcribe` handler returns.  Optional fields model
keys that are present only on one of the two outcomes. -/
structure Response where
  text : String
  is_final : Bool
  language : Option String
  language_probability : Option ℚ
  error : Option String
deriving DecidableEq

/-- The body built by the `except Exception as e` clause (lines 62-67):
empty text, final, only an error message. -/
def failResponse (msg : String) : Response :=
  { text := "", is_final := true, language := none,
    language_probability := none, error := some msg }

/-- The Request Handler: the whole `transcribe` endpoint body (lines 29-67).
Any failure raised inside the `try` block — the numpy `ValueError` on a
malformed buffer or a model-side fault — is caught and converted to
`failResponse`. -/
def handle (m : ModelFn) (buf : List Byte) : Response :=
  match decode buf with
  | Except.error e => failResponse e
  | Except.ok samples =>
    match m samples fixedOptions with
    | Except.error e => failResponse e
    | Except.ok (segs, info) =>
      { text := assemble segs, is_final := true,
        language := some info.language,
        language_probability := some info.language_probability,
        error := none }

/-- The process-wide configuration read from the environment at startup
(lines 15-17), immutable for the process lifetime. -/
structure ModelConfig where
  model_size : String
  device : String
  compute_type : String
deriving DecidableEq

/-- The body returned by the `/health` endpoint. -/
structure HealthResponse where
  status : String
  model : String
  device : String
deriving DecidableEq

/-- The `/health` endpoint (lines 69-71): a pure read of the startup
configuration. -/
def health (c : ModelConfig) : HealthResponse :=
  { status := "ok", model := c.model_size, device := c.device }

/-- One request processed against the process state.  The handler assigns to
no module-level variable, so the state component is returned unchanged. -/
def handleRequest (st : ModelConfig) (m : ModelFn) (buf : List Byte) :
    ModelConfig × Response :=
  (st, handle m buf)

/-- A whole sequence of requests processed in order against the process
state, collecting the responses. -/
def runServer (m : ModelFn) : ModelConfig → List (List Byte) → ModelConfig × List Response
  | st, [] => (st, [])
  | st, buf :: rest =>
    let p := handleRequest st m buf
    let q := runServer m p.1 rest
    (q.1, p.2 :: q.2)

/-- Spec-side restatement of the Segment Assembler's joining step, written
from the words of the spec: concatenate the texts in order with a single
space separator. -/
def joinWithSpace : List String → String
  | [] => ""
  | [t] => t
  | t :: rest => t ++ " " ++ joinWithSpace rest

/-- The i-th little-endian signed 16-bit integer of a byte buffer. -/
def int16At (buf : List Byte) (i : Nat) : Int :=
  toInt16 (buf.getD (2 * i) 0) (buf.getD (2 * i + 1) 0)

/-- A deterministic stand-in model that always succeeds with fixed segments
and info, used to evaluate the handler at concrete inputs. -/
def constModel (segs : List Segment) (info : TranscriptionInfo) : ModelFn :=
  fun _ _ => Except.ok (segs, info)

/-- A stand-in model that always fails, simulating a model-side fault. -/
def failingModel (msg : String) : ModelFn :=
  fun _ _ => Except.error msg

/-! ## Helper lemmas -/

/-- Induction on a byte list two bytes at a time, matching the int16 element
width of the decoder. -/
theorem twoStepInduction {P : List Byte → Prop} (h0 : P []) (h1 : ∀ b, P [b])
    (h2 : ∀ a b l, P l → P (a :: b :: l)) : ∀ l, P l
  | [] => h0
  | [b] => h1 b
  | a :: b :: l => h2 a b l (twoStepInduction h0 h1 h2 l)

theorem toInt16_range (lo hi : Byte) : -32768 ≤ toInt16 lo hi ∧ toInt16 lo hi ≤ 32767 := by
  have hlo := lo.isLt
  have hhi := hi.isLt
  unfold toInt16
  split <;> omega

theorem toInt16_eq_min_iff (lo hi : Byte) :
    toInt16 lo hi = -32768 ↔ lo.val = 0 ∧ hi.val = 128 := by
  have hlo := lo.isLt
  have hhi := hi.isLt
  unfold toInt16
  split <;> omega

theorem getD_cons_cons (a b : Byte) (l : List Byte) (n : Nat) :
    (a :: b :: l).getD (n + 2) 0 = l.getD n 0 := rfl

/-- Unfolding of `np.frombuffer` on a well-formed (even-length) buffer: it
succeeds, halves the length, and the i-th element is the i-th little-endian
int16 of the buffer. -/
theorem frombuffer_even : ∀ buf : List Byte, buf.length % 2 = 0 →
    ∃ t, frombufferInt16 buf = Except.ok t ∧ t.length = buf.length / 2 ∧
      (∀ i, i < t.length → t.getD i 0 = int16At buf i) ∧
      (∀ x ∈ t, ∃ a b : Byte, x = toInt16 a b) := by
  refine twoStepInduction ?_ ?_ ?_
  · intro _
    refine ⟨[], rfl, rfl, ?_, ?_⟩
    · intro i hi
      simp at hi
    · intro x hx
      simp at hx
  · intro b hb
    simp at hb
  · intro a b l ih hl
    have hl' : l.length % 2 = 0 := by
      simp only [List.length_cons] at hl
      omega
    obtain ⟨t, ht, hlen, hget, hmem⟩ := ih hl'
    refine ⟨toInt16 a b :: t, ?_, ?_, ?_, ?_⟩
    · simp [frombufferInt16, ht, Except.map]
    · simp only [List.length_cons, hlen]
      omega
    · intro i hi
      cases i with
      | zero => rfl
      | succ j =>
        have hj : j < t.length := by
          simp only [List.length_cons] at hi
          omega
        have hg := hget j hj
        have e2 : 2 * (j + 1) = 2 * j + 2 := by ring
        have e3 : 2 * (j + 1) + 1 = 2 * j + 1 + 2 := by ring
        simp only [List.getD_cons_succ]
        unfold int16At
        rw [e3, e2, getD_cons_cons, getD_cons_cons]
        unfold int16At at hg
        exact hg
    · intro x hx
      rcases List.mem_cons.mp hx with h | h
      · exact ⟨a, b, h⟩
      · exact hmem x h

/-- Bounds on a normalized sample given the int16 range. -/
theorem sample_bounds (x : Int) (h1 : -32768 ≤ x) (h2 : x ≤ 32767) :
    -1 ≤ (x : ℚ) / 32768 ∧ (x : ℚ) / 32768 ≤ 32767 / 32768 := by
  have hc : (0 : ℚ) < 32768 := by norm_num
  constructor
  · have : (-32768 : ℚ) / 32768 ≤ (x : ℚ) / 32768 := by
      rw [div_le_div_iff_of_pos_right hc]
      exact_mod_cast h1
    simpa using this
  · rw [div_le_div_iff_of_pos_right hc]
    exact_mod_cast h2

theorem sample_eq_neg_one_iff (x : Int) :
    (x : ℚ) / 32768 = -1 ↔ x = -32768 := by
  rw [div_eq_iff (by norm_num : (32768 : ℚ) ≠ 0)]
  norm_num
  exact_mod_cast Iff.rfl

/-- `np.frombuffer` on an odd-length buffer raises, whatever the bytes. -/
theorem frombuffer_odd : ∀ buf : List Byte, buf.length % 2 = 1 →
    frombufferInt16 buf = Except.error "buffer size must be a multiple of element size" := by
  refine twoStepInduction ?_ ?_ ?_
  · intro h
    simp at h
  · intro b _
    rfl
  · intro a b l ih hl
    have hl' : l.length % 2 = 1 := by
      simp only [List.length_cons] at hl
      omega
    simp [frombufferInt16, ih hl', Except.map]

/-- The accumulator loop of `String.intercalate` with separator one space. -/
theorem intercalate_go_spec : ∀ (l : List String) (acc : String),
    String.intercalate.go acc " " l =
      (match l with
       | [] => acc
       | _ :: _ => acc ++ " " ++ joinWithSpace l)
  | [], acc => rfl
  | a :: as, acc => by
    show String.intercalate.go (acc ++ " " ++ a) " " as = _
    rw [intercalate_go_spec as (acc ++ " " ++ a)]
    cases as with
    | nil => simp [joinWithSpace]
    | cons b bs => simp [joinWithSpace, String.append_assoc]

/-- `" ".join` is exactly the spec's in-order single-space concatenation. -/
theorem intercalate_space_eq_joinWithSpace : ∀ l : List String,
    String.intercalate " " l = joinWithSpace l
  | [] => rfl
  | a :: as => by
    show String.intercalate.go a " " as = _
    rw [intercalate_go_spec as a]
    cases as with
    | nil => rfl
    | cons b bs => simp [joinWithSpace, String.append_assoc]

/-- One-step evaluation of the leading-whitespace scan on the concrete
string hello-space-world: the first character is not whitespace. -/
theorem takeWhileAux_hello :
    Substring.takeWhileAux "hello world" ⟨11⟩ Char.isWhitespace ⟨0⟩ = ⟨0⟩ := by
  rw [Substring.takeWhileAux.eq_def]
  decide

/-- One-step evaluation of the trailing-whitespace scan on the concrete
string hello-space-world: the last character is not whitespace. -/
theorem takeRightWhileAux_hello :
    Substring.takeRightWhileAux "hello world" ⟨0⟩ Char.isWhitespace ⟨11⟩ = ⟨11⟩ := by
  rw [Substring.takeRightWhileAux.eq_def]
  decide

theorem trim_hello_world : ("hello world" : String).trim = "hello world" := by
  show (("hello world" : String).toSubstring.trim).toString = _
  rw [show ("hello world" : String).toSubstring = ⟨"hello world", ⟨0⟩, ⟨11⟩⟩ from rfl]
  simp only [Substring.trim]
  rw [takeWhileAux_hello, takeRightWhileAux_hello]
  decide

theorem takeWhileAux_empty :
    Substring.takeWhileAux "" ⟨0⟩ Char.isWhitespace ⟨0⟩ = ⟨0⟩ := by
  rw [Substring.takeWhileAux.eq_def]
  decide

theorem takeRightWhileAux_empty :
    Substring.takeRightWhileAux "" ⟨0⟩ Char.isWhitespace ⟨0⟩ = ⟨0⟩ := by
  rw [Substring.takeRightWhileAux.eq_def]
  decide

theorem trim_empty : ("" : String).trim = "" := by
  show (("" : String).toSubstring.trim).toString = _
  rw [show ("" : String).toSubstring = ⟨"", ⟨0⟩, ⟨0⟩⟩ from rfl]
  simp only [Substring.trim]
  rw [takeWhileAux_empty, takeRightWhileAux_empty]
  decide

theorem assemble_nil : assemble [] = "" := by
  unfold assemble
  exact trim_empty

theorem assemble_hello_world :
    assemble [⟨0, 1, "hello"⟩, ⟨1, 2, "world"⟩] = "hello world" := by
  unfold assemble
  exact trim_hello_world

/-- The responses of a request sequence are the per-buffer handler outputs. -/
theorem runServer_snd (m : ModelFn) (c : ModelConfig) (bufs : List (List Byte)) :
    (runServer m c bufs).2 = bufs.map (handle m) := by
  induction bufs generalizing c with
  | nil => rfl
  | cons b rest ih => simp [runServer, handleRequest, ih]

/-! ## Claim theorems -/

/-- C1: for every inbound byte buffer and every model behaviour, the handler
returns a well-formed result with `is_final = true`; on any pipeline failure
the response is exactly `failResponse` of a human-readable message (empty
text, no language, no language probability, an error message), and on
success the response carries a language, a language probability and no
error. -/
theorem handler_always_structured (m : ModelFn) (buf : List Byte) :
    (handle m buf).is_final = true ∧
    ((∃ msg, handle m buf = failResponse msg) ∨
     ((handle m buf).error = none ∧
      (∃ l, (handle m buf).language = some l) ∧
      (∃ p, (handle m buf).language_probability = some p))) := by
  cases hd : decode buf with
  | error e =>
    refine ⟨?_, Or.inl ⟨e, ?_⟩⟩ <;> simp [handle, hd, failResponse]
  | ok samples =>
    cases hm : m samples fixedOptions with
    | error e =>
      refine ⟨?_, Or.inl ⟨e, ?_⟩⟩ <;> simp [handle, hd, hm, failResponse]
    | ok p =>
      obtain ⟨segs, info⟩ := p
      refine ⟨?_, Or.inr ⟨?_, ⟨info.language, ?_⟩, ⟨info.language_probability, ?_⟩⟩⟩ <;>
        simp [handle, hd, hm]

/-- C2: decoding an even-length byte buffer succeeds with one sample per
byte pair, the i-th sample being the i-th little-endian signed 16-bit
integer divided by 32768, and every sample lies in the closed interval
from -1 to 1. -/
theorem decode_even_length_samples (buf : List Byte) (h : buf.length % 2 = 0) :
    ∃ s, decode buf = Except.ok s ∧ s.length = buf.length / 2 ∧
      (∀ i, i < s.length → s.getD i 0 = (int16At buf i : ℚ) / 32768) ∧
      (∀ q ∈ s, -1 ≤ q ∧ q ≤ 1) := by
  obtain ⟨t, ht, hlen, hget, hmem⟩ := frombuffer_even buf h
  refine ⟨t.map (fun i : Int => (i : ℚ) / 32768), ?_, ?_, ?_, ?_⟩
  · simp [decode, ht, Except.map]
  · simpa using hlen
  · intro i hi
    have hi' : i < t.length := by simpa using hi
    have h1 : (t.map (fun i : Int => (i : ℚ) / 32768)).getD i 0 =
        ((t.getD i 0 : Int) : ℚ) / 32768 := by
      rw [List.getD_eq_getElem _ _ hi, List.getElem_map, List.getD_eq_getElem _ _ hi']
    rw [h1, hget i hi']
  · intro q hq
    obtain ⟨x, hx, rfl⟩ := List.mem_map.mp hq
    obtain ⟨a, b, rfl⟩ := hmem x hx
    obtain ⟨r1, r2⟩ := toInt16_range a b
    obtain ⟨s1, s2⟩ := sample_bounds _ r1 r2
    exact ⟨s1, le_trans s2 (by norm_num)⟩

/-- C2 witness: the two-byte buffer with bytes 1 and 128 decodes as
stated. -/
theorem decode_even_length_samples_witness :
    ∃ s, decode [(1 : Byte), 128] = Except.ok s ∧
      s.length = ([(1 : Byte), 128]).length / 2 ∧
      (∀ i, i < s.length → s.getD i 0 = (int16At [(1 : Byte), 128] i : ℚ) / 32768) ∧
      (∀ q ∈ s, -1 ≤ q ∧ q ≤ 1) :=
  decode_even_length_samples [(1 : Byte), 128] (by decide)

/-- C3: an odd-length buffer makes the decoder fail with the malformed-audio
error, the handler then returns the failure response built from that message,
and the model is never consulted: the handler output does not depend on the
model at all. -/
theorem odd_buffer_rejected (buf : List Byte) (m₁ m₂ : ModelFn)
    (h : buf.length % 2 = 1) :
    decode buf = Except.error "buffer size must be a multiple of element size" ∧
    handle m₁ buf = failResponse "buffer size must be a multiple of element size" ∧
    handle m₁ buf = handle m₂ buf := by
  have hd : decode buf = Except.error "buffer size must be a multiple of element size" := by
    simp [decode, frombuffer_odd buf h, Except.map]
  refine ⟨hd, ?_, ?_⟩
  · simp [handle, hd]
  · simp [handle, hd]

/-- C3 witness: the singleton buffer is rejected without consulting the
model, here evaluated against two observably different models. -/
theorem odd_buffer_rejected_witness :
    decode [(7 : Byte)] = Except.error "buffer size must be a multiple of element size" ∧
    handle (constModel [] ⟨"en", 1⟩) [(7 : Byte)] =
      failResponse "buffer size must be a multiple of element size" ∧
    handle (constModel [] ⟨"en", 1⟩) [(7 : Byte)] =
      handle (failingModel "device fault") [(7 : Byte)] :=
  odd_buffer_rejected [(7 : Byte)] (constModel [] ⟨"en", 1⟩)
    (failingModel "device fault") (by decide)

/-- C4: the empty buffer decodes to the empty sample sequence (not an
error), and when the model reports no speech on it the handler returns the
success response with empty text, `is_final = true`, the model's language
fields, and no error. -/
theorem empty_buffer_success (m : ModelFn) (info : TranscriptionInfo)
    (h : m [] fixedOptions = Except.ok ([], info)) :
    decode [] = Except.ok [] ∧
    handle m [] =
      { text := "", is_final := true, language := some info.language,
        language_probability := some info.language_probability, error := none } := by
  refine ⟨rfl, ?_⟩
  have hd : decode ([] : List Byte) = Except.ok [] := rfl
  simp only [handle, hd, h]
  rw [assemble_nil]

/-- C4 witness: a concrete no-speech model on the empty buffer. -/
theorem empty_buffer_success_witness :
    decode [] = Except.ok [] ∧
    handle (constModel [] ⟨"en", 98 / 100⟩) [] =
      { text := "", is_final := true, language := some "en",
        language_probability := some (98 / 100), error := none } :=
  empty_buffer_success (constModel [] ⟨"en", 98 / 100⟩) ⟨"en", 98 / 100⟩ rfl

/-- C5: assembly is exactly the spec's in-order single-space concatenation
of the segment texts followed by stripping the joined string; in particular
segments with texts hello and world assemble to the string hello-space-world,
and the empty sequence assembles to the empty string. -/
theorem assemble_joins_in_order (segs : List Segment) :
    assemble segs = (joinWithSpace (segs.map Segment.text)).trim ∧
    assemble [⟨0, 1, "hello"⟩, ⟨1, 2, "world"⟩] = "hello world" ∧
    assemble [] = "" := by
  refine ⟨?_, assemble_hello_world, assemble_nil⟩
  unfold assemble
  rw [intercalate_space_eq_joinWithSpace]

/-- C6: the handler consults the model only at the fixed option set — any
two models that agree on `fixedOptions` yield identical handler output — the
fixed options are language forced to en, beam size 5, VAD on with a 500 ms
minimum-silence threshold, and a successful response carries the model's own
detected language and probability. -/
theorem gateway_fixed_options (m₁ m₂ : ModelFn) (buf : List Byte)
    (samples : List ℚ) (segs : List Segment) (info : TranscriptionInfo)
    (hagree : ∀ s, m₁ s fixedOptions = m₂ s fixedOptions)
    (hd : decode buf = Except.ok samples)
    (hm : m₁ samples fixedOptions = Except.ok (segs, info)) :
    handle m₁ buf = handle m₂ buf ∧
    (handle m₁ buf).language = some info.language ∧
    (handle m₁ buf).language_probability = some info.language_probability ∧
    fixedOptions.language = "en" ∧ fixedOptions.beam_size = 5 ∧
    fixedOptions.vad_filter = true ∧ fixedOptions.min_silence_duration_ms = 500 := by
  have hm₂ : m₂ samples fixedOptions = Except.ok (segs, info) := by
    rw [← hagree samples]
    exact hm
  refine ⟨?_, ?_, ?_, rfl, rfl, rfl, rfl⟩
  · simp [handle, hd, hm, hm₂]
  · simp [handle, hd, hm]
  · simp [handle, hd, hm]

/-- C6 witness: two syntactically different models agreeing at the fixed
options, evaluated on the empty buffer. -/
theorem gateway_fixed_options_witness :
    handle (constModel [] ⟨"en", 1⟩) [] = handle (constModel [] ⟨"en", 1⟩) [] ∧
    (handle (constModel [] ⟨"en", 1⟩) []).language = some "en" ∧
    (handle (constModel [] ⟨"en", 1⟩) []).language_probability = some 1 ∧
    fixedOptions.language = "en" ∧ fixedOptions.beam_size = 5 ∧
    fixedOptions.vad_filter = true ∧ fixedOptions.min_silence_duration_ms = 500 :=
  gateway_fixed_options (constModel [] ⟨"en", 1⟩) (constModel [] ⟨"en", 1⟩)
    [] [] [] ⟨"en", 1⟩ (fun _ => rfl) rfl rfl

/-- C8: the readiness endpoint is a pure read of the startup configuration:
after any sequence of transcription requests against any model, the process
state is unchanged and the health body is still status ok with the
configured model size and device. -/
theorem health_stable (c : ModelConfig) (m : ModelFn) (bufs : List (List Byte)) :
    (runServer m c bufs).1 = c ∧
    health (runServer m c bufs).1 =
      { status := "ok", model := c.model_size, device := c.device } := by
  induction bufs generalizing c with
  | nil => exact ⟨rfl, rfl⟩
  | cons b rest ih =>
    have h := ih c
    simpa [runServer, handleRequest] using h

/-- C9: the normalized range is strictly tighter than the closed unit
interval: every decoded sample of an even-length buffer lies between -1 and
32767/32768, which is less than 1, and a sample equals -1 exactly when its
source int16 value is -32768. -/
theorem decode_samples_strict_range (buf : List Byte) (h : buf.length % 2 = 0) :
    ∃ s, decode buf = Except.ok s ∧
      (∀ q ∈ s, -1 ≤ q ∧ q ≤ 32767 / 32768) ∧
      (32767 / 32768 : ℚ) < 1 ∧
      (∀ i, i < s.length → (s.getD i 0 = -1 ↔ int16At buf i = -32768)) := by
  obtain ⟨t, ht, hlen, hget, hmem⟩ := frombuffer_even buf h
  refine ⟨t.map (fun i : Int => (i : ℚ) / 32768), ?_, ?_, by norm_num, ?_⟩
  · simp [decode, ht, Except.map]
  · intro q hq
    obtain ⟨x, hx, rfl⟩ := List.mem_map.mp hq
    obtain ⟨a, b, rfl⟩ := hmem x hx
    obtain ⟨r1, r2⟩ := toInt16_range a b
    exact sample_bounds _ r1 r2
  · intro i hi
    have hi' : i < t.length := by simpa using hi
    have h1 : (t.map (fun i : Int => (i : ℚ) / 32768)).getD i 0 =
        ((t.getD i 0 : Int) : ℚ) / 32768 := by
      rw [List.getD_eq_getElem _ _ hi, List.getElem_map, List.getD_eq_getElem _ _ hi']
    rw [h1, hget i hi']
    exact sample_eq_neg_one_iff (int16At buf i)

/-- C9 witness: the buffer holding the int16 values -32768 and 32767
attains -1 and stays below 1 as stated. -/
theorem decode_samples_strict_range_witness :
    ∃ s, decode [(0 : Byte), 128, 255, 127] = Except.ok s ∧
      (∀ q ∈ s, -1 ≤ q ∧ q ≤ 32767 / 32768) ∧
      (32767 / 32768 : ℚ) < 1 ∧
      (∀ i, i < s.length →
        (s.getD i 0 = -1 ↔ int16At [(0 : Byte), 128, 255, 127] i = -32768)) :=
  decode_samples_strict_range [(0 : Byte), 128, 255, 127] (by decide)

/-- C10: the handler retains no state across requests: within any request
sequence, each response is a function of its own buffer alone, so two
requests with identical buffers receive identical responses wherever they
sit in the sequence. -/
theorem handler_stateless (m : ModelFn) (c : ModelConfig) (bufs : List (List Byte))
    (i j : Nat) (hi : i < bufs.length) (hj : j < bufs.length)
    (hij : bufs.getD i [] = bufs.getD j []) :
    (runServer m c bufs).2.getD i (failResponse "") = handle m (bufs.getD i []) ∧
    (runServer m c bufs).2.getD i (failResponse "") =
      (runServer m c bufs).2.getD j (failResponse "") := by
  have key : ∀ k : Nat, k < bufs.length →
      (runServer m c bufs).2.getD k (failResponse "") = handle m (bufs.getD k []) := by
    intro k hk
    rw [runServer_snd]
    rw [List.getD_eq_getElem _ _ (by simpa using hk), List.getElem_map,
      List.getD_eq_getElem _ _ hk]
  refine ⟨key i hi, ?_⟩
  rw [key i hi, key j hj, hij]

/-- C10 witness: the first and third requests of a three-request run carry
the same buffer and get the same response. -/
theorem handler_stateless_witness :
    (runServer (constModel [] ⟨"en", 1⟩) ⟨"base", "cpu", "int8"⟩
        [[(0 : Byte), 0], [(1 : Byte)], [(0 : Byte), 0]]).2.getD 0 (failResponse "") =
      handle (constModel [] ⟨"en", 1⟩)
        (([[(0 : Byte), 0], [(1 : Byte)], [(0 : Byte), 0]]).getD 0 []) ∧
    (runServer (constModel [] ⟨"en", 1⟩) ⟨"base", "cpu", "int8"⟩
        [[(0 : Byte), 0], [(1 : Byte)], [(0 : Byte), 0]]).2.getD 0 (failResponse "") =
      (runServer (constModel [] ⟨"en", 1⟩) ⟨"base", "cpu", "int8"⟩
        [[(0 : Byte), 0], [(1 : Byte)], [(0 : Byte), 0]]).2.getD 2 (failResponse "") :=
  handler_stateless (constModel [] ⟨"en", 1⟩) ⟨"base", "cpu", "int8"⟩
    [[(0 : Byte), 0], [(1 : Byte)], [(0 : Byte), 0]] 0 2 (by decide) (by decide) (by decide)

end WhisperServer
